import Mathlib

/-!
Verification of `Magnum::Math::Matrix3<T>` (src/src/Math/Matrix3.h): a 3x3
matrix for 2D affine transformations, stored column-major as three column
vectors.  The generic `Matrix<N,T>` / `Vector2<T>` / `Vector3<T>` machinery the
header builds on is an external dependency not shipped with the core; those
parts are modelled from the spec (standard componentwise vector/matrix
arithmetic, column-major layout, `operator()(col, row)` element access so that
`(0,2), (1,2), (2,2)` is the last row, default-constructed square matrices
being identity, and scalar comparison via the per-type equality policy, which
is exact equality for exact scalar types).  Contract failures
(`CORRADE_ASSERT`) are embedded as `Option`: `none` is a signalled failure,
`some m` a normal return.  Scalars are a generic linear ordered field, which
models the exact-arithmetic instantiations of the C++ template; `rotation`
uses real sine/cosine and is embedded over `ℝ`.
-/

namespace Magnum

/-- Modelled from the spec: the external 2-component vector `Vector2<T>`. -/
structure Vector2 (T : Type) where
  x : T
  y : T
deriving DecidableEq

/-- Modelled from the spec: the external 3-component vector `Vector3<T>`. -/
structure Vector3 (T : Type) where
  x : T
  y : T
  z : T
deriving DecidableEq

/-- Modelled from the spec: the external generic 2x2 matrix `Matrix<2,T>`,
column-major as two columns. -/
structure Matrix2 (T : Type) where
  c0 : Vector2 T
  c1 : Vector2 T
deriving DecidableEq

/-- `Matrix3<T>`: 3x3 matrix, column-major as three `Vector3` columns. -/
structure Matrix3 (T : Type) where
  c0 : Vector3 T
  c1 : Vector3 T
  c2 : Vector3 T
deriving DecidableEq

variable {T : Type} [LinearOrderedField T]

/-- Modelled from the spec: componentwise negation of a 2D vector. -/
def Vector2.neg (v : Vector2 T) : Vector2 T :=
  Vector2.mk (-v.x) (-v.y)

/-- Modelled from the spec: dot product of two 2D vectors; `normal.dot()` in
the source is `Vector2.dot n n`. -/
def Vector2.dot (a b : Vector2 T) : T :=
  a.x * b.x + a.y * b.y

/-- Modelled from the spec: the external `Matrix<2,T>()` default constructor,
the 2x2 identity. -/
def Matrix2.identity : Matrix2 T :=
  Matrix2.mk (Vector2.mk 1 0) (Vector2.mk 0 1)

/-- Modelled from the spec: transpose of a 2x2 matrix. -/
def Matrix2.transposed (m : Matrix2 T) : Matrix2 T :=
  Matrix2.mk (Vector2.mk m.c0.x m.c1.x) (Vector2.mk m.c0.y m.c1.y)

/-- Modelled from the spec: matrix-vector product of the external 2x2 matrix
(column-major: the result is `v.x` times column 0 plus `v.y` times column 1). -/
def Matrix2.mulVec (m : Matrix2 T) (v : Vector2 T) : Vector2 T :=
  Vector2.mk (m.c0.x * v.x + m.c1.x * v.y) (m.c0.y * v.x + m.c1.y * v.y)

/-- Modelled from the spec: 2x2 matrix product, column `j` of `a*b` being `a`
applied to column `j` of `b`. -/
def Matrix2.mul (a b : Matrix2 T) : Matrix2 T :=
  Matrix2.mk (a.mulVec b.c0) (a.mulVec b.c1)

/-- Modelled from the spec: componentwise difference of 2x2 matrices. -/
def Matrix2.sub (a b : Matrix2 T) : Matrix2 T :=
  Matrix2.mk (Vector2.mk (a.c0.x - b.c0.x) (a.c0.y - b.c0.y))
             (Vector2.mk (a.c1.x - b.c1.x) (a.c1.y - b.c1.y))

/-- Modelled from the spec: scalar multiple of a 2x2 matrix. -/
def Matrix2.smul (t : T) (m : Matrix2 T) : Matrix2 T :=
  Matrix2.mk (Vector2.mk (t * m.c0.x) (t * m.c0.y))
             (Vector2.mk (t * m.c1.x) (t * m.c1.y))

/-- Modelled from the spec: the outer product `n * n.transposed()` of a column
2-vector with its transposed row, a 2x2 matrix with entry `(row i, col j)`
equal to `n_i * n_j`. -/
def Matrix2.outer (n : Vector2 T) : Matrix2 T :=
  Matrix2.mk (Vector2.mk (n.x * n.x) (n.y * n.x)) (Vector2.mk (n.x * n.y) (n.y * n.y))

/-- Modelled from the spec: the `Matrix3` identity default constructor
(`Matrix3()` with diagonal value 1). -/
def Matrix3.identity : Matrix3 T :=
  Matrix3.mk (Vector3.mk 1 0 0) (Vector3.mk 0 1 0) (Vector3.mk 0 0 1)

/-- Modelled from the spec: matrix-vector product of the 3x3 matrix with a
homogeneous 3-vector (a `Point2D` carries an implicit third coordinate);
column-major linear combination of the columns. -/
def Matrix3.mulVec (m : Matrix3 T) (v : Vector3 T) : Vector3 T :=
  Vector3.mk (m.c0.x * v.x + m.c1.x * v.y + m.c2.x * v.z)
             (m.c0.y * v.x + m.c1.y * v.y + m.c2.y * v.z)
             (m.c0.z * v.x + m.c1.z * v.y + m.c2.z * v.z)

/-- Modelled from the spec: 3x3 matrix product, column `j` of `a*b` being `a`
applied to column `j` of `b`. -/
def Matrix3.mul (a b : Matrix3 T) : Matrix3 T :=
  Matrix3.mk (a.mulVec b.c0) (a.mulVec b.c1) (a.mulVec b.c2)

/-- `Matrix3::translation(vector)`: identity block, third column
`(v.x, v.y, 1)` (source lines 45-51, column-major literals). -/
def Matrix3.translation (v : Vector2 T) : Matrix3 T :=
  Matrix3.mk (Vector3.mk 1 0 0) (Vector3.mk 0 1 0) (Vector3.mk v.x v.y 1)

/-- `Matrix3::scaling(vector)`: diagonal `(v.x, v.y, 1)` (source lines 60-66). -/
def Matrix3.scaling (v : Vector2 T) : Matrix3 T :=
  Matrix3.mk (Vector3.mk v.x 0 0) (Vector3.mk 0 v.y 0) (Vector3.mk 0 0 1)

/-- `Matrix3::rotation(angle)` (source lines 75-84): columns
`(cos, sin, 0)`, `(-sin, cos, 0)`, `(0, 0, 1)`; `std::sin`/`std::cos` are
embedded as the real sine/cosine. -/
noncomputable def Matrix3.rotation (angle : ℝ) : Matrix3 ℝ :=
  Matrix3.mk (Vector3.mk (Real.cos angle) (Real.sin angle) 0)
             (Vector3.mk (-Real.sin angle) (Real.cos angle) 0)
             (Vector3.mk 0 0 1)

/-- `Matrix3::from(rotationScaling, translation)` (source lines 118-124):
columns of the 2x2 block extended with a zero, translation extended with 1
(`from` is a Lean keyword, hence the prime). -/
def Matrix3.from' (rotationScaling : Matrix2 T) (translation : Vector2 T) : Matrix3 T :=
  Matrix3.mk (Vector3.mk rotationScaling.c0.x rotationScaling.c0.y 0)
             (Vector3.mk rotationScaling.c1.x rotationScaling.c1.y 0)
             (Vector3.mk translation.x translation.y 1)

/-- The 2x2 block `I - 2*n*n^T` that `reflection` embeds (source line 96). -/
def Matrix3.reflectionMatrix (normal : Vector2 T) : Matrix3 T :=
  Matrix3.from' (Matrix2.sub Matrix2.identity (Matrix2.smul 2 (Matrix2.outer normal)))
                (Vector2.mk 0 0)

/-- `Matrix3::reflection(normal)` (source lines 93-97): asserts the normal is
normalized (`MathTypeTraits<T>::equals(normal.dot(), 1)`, exact equality for
exact scalar types); on failure the contract failure is signalled (`none`),
otherwise `from(I - 2*n*n^T, 0)`. -/
def Matrix3.reflection [DecidableEq T] (normal : Vector2 T) : Option (Matrix3 T) :=
  if Vector2.dot normal normal = 1 then some (Matrix3.reflectionMatrix normal) else none

/-- `Matrix3::projection(size)` (source lines 105-107): `scaling(2/size)`,
componentwise division, no contract check. -/
def Matrix3.projection (size : Vector2 T) : Matrix3 T :=
  Matrix3.scaling (Vector2.mk (2 / size.x) (2 / size.y))

/-- `Matrix3::rotationScaling()` (source lines 149-153): upper-left 2x2 block,
columns 0 and 1 truncated to their first two components. -/
def Matrix3.rotationScaling (m : Matrix3 T) : Matrix2 T :=
  Matrix2.mk (Vector2.mk m.c0.x m.c0.y) (Vector2.mk m.c1.x m.c1.y)

/-- `Matrix3::translation()` accessor (source lines 192-193): first two
components of column 2 (named apart from the `translation` factory, which in
C++ is an overload). -/
def Matrix3.translationPart (m : Matrix3 T) : Vector2 T :=
  Vector2.mk m.c2.x m.c2.y

/-- The first `invertedEuclidean` precondition (source line 205):
`(*this)(0,2) == 0 && (*this)(1,2) == 0 && (*this)(2,2) == 1` with
`operator()(col, row)` element access, i.e. the last row is `(0, 0, 1)`. -/
def Matrix3.lastRowOk (m : Matrix3 T) : Prop :=
  m.c0.z = 0 ∧ m.c1.z = 0 ∧ m.c2.z = 1

instance (m : Matrix3 T) : Decidable m.lastRowOk := by
  unfold Matrix3.lastRowOk
  infer_instance

/-- `Matrix3::invertedEuclidean()` (source lines 204-211): asserts the last
row is `(0,0,1)`, then that the transposed rotation block times the rotation
block is exactly the identity, and returns
`from(inverseRotation, inverseRotation * -translation())`; a failed assertion
is a signalled contract failure (`none`). -/
def Matrix3.invertedEuclidean [DecidableEq T] (m : Matrix3 T) : Option (Matrix3 T) :=
  if m.lastRowOk then
    if Matrix2.mul m.rotationScaling.transposed m.rotationScaling = Matrix2.identity then
      some (Matrix3.from' m.rotationScaling.transposed
              (Matrix2.mulVec m.rotationScaling.transposed (Vector2.neg m.translationPart)))
    else none
  else none

/-- For a 2x2 block over a field, the transpose being a left inverse makes it
a right inverse as well: from `Rᵗ·R = I` follows `R·Rᵗ = I`. -/
theorem Matrix2.mul_transposed_of_transposed_mul {R : Matrix2 T}
    (h : Matrix2.mul R.transposed R = Matrix2.identity) :
    Matrix2.mul R R.transposed = Matrix2.identity := by
  obtain ⟨⟨a, b⟩, ⟨c, d⟩⟩ := R
  simp only [Matrix2.mul, Matrix2.transposed, Matrix2.identity, Matrix2.mulVec,
    Matrix2.mk.injEq, Vector2.mk.injEq] at h ⊢
  obtain ⟨⟨h1, h2⟩, h3, h4⟩ := h
  refine ⟨⟨?_, ?_⟩, ?_, ?_⟩
  · linear_combination (1 - c * c) * h1 + (a * c - b * d) * h2 + b * b * h4
  · linear_combination (a * d + b * c) * h2 - a * b * h4 - c * d * h1
  · linear_combination (a * d + b * c) * h2 - a * b * h4 - c * d * h1
  · linear_combination c * c * h1 + (d * b - c * a) * h2 + (1 - b * b) * h4

/-- `from` fixes the last row to `(0,0,1)`. -/
theorem Matrix3.lastRowOk_from' (R : Matrix2 T) (t : Vector2 T) :
    (Matrix3.from' R t).lastRowOk :=
  ⟨rfl, rfl, rfl⟩

/-- The 2x2 block of `from(R, t)` is `R`. -/
theorem Matrix3.rotationScaling_from' (R : Matrix2 T) (t : Vector2 T) :
    (Matrix3.from' R t).rotationScaling = R :=
  rfl

/-- The translation part of `from(R, t)` is `t`. -/
theorem Matrix3.translationPart_from' (R : Matrix2 T) (t : Vector2 T) :
    (Matrix3.from' R t).translationPart = t :=
  rfl

omit [LinearOrderedField T] in
/-- Transposing a 2x2 block twice gives it back. -/
theorem Matrix2.transposed_transposed (R : Matrix2 T) :
    R.transposed.transposed = R :=
  rfl

/-- Claim C1: on a matrix whose last row is `(0,0,1)` and whose 2x2
rotation/scaling block is orthogonal, `invertedEuclidean()` returns (with no
failure) exactly `from(Rinv, Rinv * (-translation()))` where `Rinv` is the
transpose of `rotationScaling()` — transpose-and-rotate-negated-translation,
with no division or determinant anywhere in the computation. -/
theorem claim_C1_invertedEuclidean_algorithm [DecidableEq T] (M : Matrix3 T)
    (hrow : M.lastRowOk)
    (horth : Matrix2.mul M.rotationScaling.transposed M.rotationScaling = Matrix2.identity) :
    M.invertedEuclidean = some (Matrix3.from' M.rotationScaling.transposed
      (Matrix2.mulVec M.rotationScaling.transposed (Vector2.neg M.translationPart))) := by
  unfold Matrix3.invertedEuclidean
  rw [if_pos hrow, if_pos horth]

/-- Claim C1 witness: the 90-degree-rotation-plus-translation matrix with
columns `(0,1,0)`, `(-1,0,0)`, `(3,4,1)` over `ℚ` satisfies both
preconditions and its fast inverse is the transposed block with rotated
negated translation. -/
theorem claim_C1_witness :
    (Matrix3.mk (Vector3.mk 0 1 0) (Vector3.mk (-1) 0 0) (Vector3.mk 3 4 1) :
      Matrix3 ℚ).invertedEuclidean
      = some (Matrix3.from'
          (Matrix3.mk (Vector3.mk (0:ℚ) 1 0) (Vector3.mk (-1) 0 0)
            (Vector3.mk 3 4 1)).rotationScaling.transposed
          (Matrix2.mulVec
            (Matrix3.mk (Vector3.mk (0:ℚ) 1 0) (Vector3.mk (-1) 0 0)
              (Vector3.mk 3 4 1)).rotationScaling.transposed
            (Vector2.neg (Matrix3.mk (Vector3.mk (0:ℚ) 1 0) (Vector3.mk (-1) 0 0)
              (Vector3.mk 3 4 1)).translationPart))) :=
  claim_C1_invertedEuclidean_algorithm _ ⟨rfl, rfl, rfl⟩
    (by norm_num [Matrix3.rotationScaling, Matrix2.transposed, Matrix2.mul,
      Matrix2.mulVec, Matrix2.identity])

/-- Claim C3: `invertedEuclidean()` signals the `NotEuclidean` contract
failure (returns no matrix) precisely when the last row is not `(0,0,1)` or
the transposed 2x2 block times the block is not exactly the identity; the
orthogonality comparison in the embedding is exact componentwise equality,
and on all other inputs no failure is signalled. -/
theorem claim_C3_notEuclidean_iff [DecidableEq T] (M : Matrix3 T) :
    M.invertedEuclidean = none ↔
      ¬ M.lastRowOk ∨
        Matrix2.mul M.rotationScaling.transposed M.rotationScaling ≠ Matrix2.identity := by
  unfold Matrix3.invertedEuclidean
  by_cases h1 : M.lastRowOk <;>
    by_cases h2 : Matrix2.mul M.rotationScaling.transposed M.rotationScaling =
      Matrix2.identity <;>
    simp [h1, h2]

/-- Claim C4: `reflection(n)` signals the `InvalidNormal` contract failure
(returns no matrix) precisely when `dot(n,n)` differs from 1 under the
per-type equality policy (exact equality at exact scalar types); normals
passing the check return normally. -/
theorem claim_C4_reflection_invalidNormal_iff [DecidableEq T] (n : Vector2 T) :
    Matrix3.reflection n = none ↔ Vector2.dot n n ≠ 1 := by
  unfold Matrix3.reflection
  by_cases h : Vector2.dot n n = 1 <;> simp [h]

/-- Claim C8: `translation(v).translation() == v` with identity 2x2 block,
and `from(R, t)` decomposes back into `R` and `t` via `rotationScaling()` and
`translation()`. -/
theorem claim_C8_construction_decomposition_roundtrip :
    (∀ v : Vector2 T, (Matrix3.translation v).translationPart = v ∧
      (Matrix3.translation v).rotationScaling = Matrix2.identity) ∧
    (∀ (R : Matrix2 T) (t : Vector2 T),
      (Matrix3.from' R t).rotationScaling = R ∧ (Matrix3.from' R t).translationPart = t) :=
  ⟨fun _ => ⟨rfl, rfl⟩, fun _ _ => ⟨rfl, rfl⟩⟩

/-- Claim C10: `projection(size)` performs no contract check at all: for
every size vector, also one with a zero component, it returns the scaling
matrix of the unguarded componentwise quotient `2/size`; the zero-component
case signals nothing and its division is handled by the total-field
convention of the embedding (division by zero yields zero). -/
theorem claim_C10_projection_unchecked :
    (∀ s : Vector2 T, Matrix3.projection s =
      Matrix3.scaling (Vector2.mk (2 / s.x) (2 / s.y))) ∧
    Matrix3.projection (Vector2.mk (0 : T) 2) = Matrix3.scaling (Vector2.mk 0 1) := by
  constructor
  · intro s
    rfl
  · simp [Matrix3.projection]

/-- Claim C6: for a size vector with nonzero components, `projection(size)`
is `scaling(2/size)`, the diagonal matrix with entries `(2/s.x, 2/s.y, 1)`
and zero translation; and `projection({2,2})` is the identity matrix. -/
theorem claim_C6_projection_is_scaling (s : Vector2 T) (_hx : s.x ≠ 0) (_hy : s.y ≠ 0) :
    Matrix3.projection s = Matrix3.scaling (Vector2.mk (2 / s.x) (2 / s.y)) ∧
    Matrix3.projection s = Matrix3.mk (Vector3.mk (2 / s.x) 0 0)
      (Vector3.mk 0 (2 / s.y) 0) (Vector3.mk 0 0 1) ∧
    (Matrix3.projection s).translationPart = Vector2.mk 0 0 ∧
    Matrix3.projection (Vector2.mk (2 : T) 2) = Matrix3.identity := by
  refine ⟨rfl, rfl, rfl, ?_⟩
  simp [Matrix3.projection, Matrix3.scaling, Matrix3.identity]

/-- Claim C6 witness: at size `(1, 4)` over `ℚ` the projection is the
diagonal scaling by `(2, 1/2)`, and `projection({2,2})` is the identity. -/
theorem claim_C6_witness :
    Matrix3.projection (Vector2.mk (1 : ℚ) 4)
        = Matrix3.scaling (Vector2.mk (2 / 1) (2 / 4)) ∧
    Matrix3.projection (Vector2.mk (1 : ℚ) 4)
        = Matrix3.mk (Vector3.mk (2 / 1) 0 0) (Vector3.mk 0 (2 / 4) 0) (Vector3.mk 0 0 1) ∧
    (Matrix3.projection (Vector2.mk (1 : ℚ) 4)).translationPart = Vector2.mk 0 0 ∧
    Matrix3.projection (Vector2.mk (2 : ℚ) 2) = Matrix3.identity :=
  claim_C6_projection_is_scaling (Vector2.mk (1 : ℚ) 4) (by norm_num) (by norm_num)

/-- Claim C7: for every angle, `rotation(angle)` has columns
`(cos, sin, 0)`, `(-sin, cos, 0)`, `(0, 0, 1)`, and with this
counterclockwise convention `rotation(pi/2)` maps the homogeneous point
`(1, 0, 1)` to `(0, 1, 1)`. -/
theorem claim_C7_rotation_columns (angle : ℝ) :
    (Matrix3.rotation angle).c0 = Vector3.mk (Real.cos angle) (Real.sin angle) 0 ∧
    (Matrix3.rotation angle).c1 = Vector3.mk (-Real.sin angle) (Real.cos angle) 0 ∧
    (Matrix3.rotation angle).c2 = Vector3.mk 0 0 1 ∧
    Matrix3.mulVec (Matrix3.rotation (Real.pi / 2)) (Vector3.mk 1 0 1) =
      Vector3.mk 0 1 1 := by
  refine ⟨rfl, rfl, rfl, ?_⟩
  simp [Matrix3.rotation, Matrix3.mulVec, Real.cos_pi_div_two, Real.sin_pi_div_two]

/-- Claim C9: every factory output — `translation(v)`, `scaling(v)`,
`rotation(angle)`, any normal return of `reflection(n)`, `projection(s)` and
`from(R, t)` — has last row exactly `(0, 0, 1)`, the last-row precondition of
`invertedEuclidean()`. -/
theorem claim_C9_factories_last_row [DecidableEq T] :
    (∀ v : Vector2 T, (Matrix3.translation v).lastRowOk) ∧
    (∀ v : Vector2 T, (Matrix3.scaling v).lastRowOk) ∧
    (∀ angle : ℝ, (Matrix3.rotation angle).lastRowOk) ∧
    (∀ (n : Vector2 T) (M : Matrix3 T), Matrix3.reflection n = some M → M.lastRowOk) ∧
    (∀ s : Vector2 T, (Matrix3.projection s).lastRowOk) ∧
    (∀ (R : Matrix2 T) (t : Vector2 T), (Matrix3.from' R t).lastRowOk) := by
  refine ⟨fun v => ⟨rfl, rfl, rfl⟩, fun v => ⟨rfl, rfl, rfl⟩, fun angle => ⟨rfl, rfl, rfl⟩,
    fun n M h => ?_, fun s => ⟨rfl, rfl, rfl⟩, fun R t => ⟨rfl, rfl, rfl⟩⟩
  unfold Matrix3.reflection at h
  split at h
  · cases h
    exact ⟨rfl, rfl, rfl⟩
  · cases h

/-- Claim C9 witness: the normal return of `reflection` at the unit normal
`(1, 0)` over `ℚ` has last row `(0, 0, 1)`. -/
theorem claim_C9_witness :
    (Matrix3.reflectionMatrix (Vector2.mk (1 : ℚ) 0)).lastRowOk :=
  (claim_C9_factories_last_row (T := ℚ)).2.2.2.1 (Vector2.mk 1 0) _
    (by norm_num [Matrix3.reflection, Vector2.dot])

/-- Claim C5: for a unit normal `n`, `reflection(n)` returns normally the
matrix with 2x2 block `I - 2*n*n^T`, zero translation and last row
`(0,0,1)`; that matrix squares to the identity and maps the homogeneous
point of `n` to the one of `-n`. -/
theorem claim_C5_reflection_properties [DecidableEq T] (n : Vector2 T)
    (h : Vector2.dot n n = 1) :
    Matrix3.reflection n = some (Matrix3.reflectionMatrix n) ∧
    (Matrix3.reflectionMatrix n).rotationScaling =
      Matrix2.sub Matrix2.identity (Matrix2.smul 2 (Matrix2.outer n)) ∧
    (Matrix3.reflectionMatrix n).translationPart = Vector2.mk 0 0 ∧
    (Matrix3.reflectionMatrix n).lastRowOk ∧
    Matrix3.mul (Matrix3.reflectionMatrix n) (Matrix3.reflectionMatrix n) =
      Matrix3.identity ∧
    Matrix3.mulVec (Matrix3.reflectionMatrix n) (Vector3.mk n.x n.y 1) =
      Vector3.mk (-n.x) (-n.y) 1 := by
  obtain ⟨nx, ny⟩ := n
  simp only [Vector2.dot] at h
  refine ⟨by simp [Matrix3.reflection, Vector2.dot, h], rfl, rfl, ⟨rfl, rfl, rfl⟩, ?_, ?_⟩
  · simp only [Matrix3.mul, Matrix3.mulVec, Matrix3.reflectionMatrix, Matrix3.from',
      Matrix2.sub, Matrix2.smul, Matrix2.outer, Matrix2.identity, Matrix3.identity,
      Matrix3.mk.injEq, Vector3.mk.injEq]
    refine ⟨⟨?_, ?_, ?_⟩, ⟨?_, ?_, ?_⟩, ?_, ?_, ?_⟩
    · linear_combination (4 * nx * nx) * h
    · linear_combination (4 * nx * ny) * h
    · ring
    · linear_combination (4 * nx * ny) * h
    · linear_combination (4 * ny * ny) * h
    · ring
    · ring
    · ring
    · ring
  · simp only [Matrix3.mulVec, Matrix3.reflectionMatrix, Matrix3.from', Matrix2.sub,
      Matrix2.smul, Matrix2.outer, Matrix2.identity, Vector3.mk.injEq]
    refine ⟨?_, ?_, ?_⟩
    · linear_combination (-2 * nx) * h
    · linear_combination (-2 * ny) * h
    · ring

/-- Claim C5 witness: at the unit normal `(3/5, 4/5)` over `ℚ`, `reflection`
returns the `I - 2*n*n^T` matrix with zero translation and affine last row,
it is an involution, and it maps the normal to its negation. -/
theorem claim_C5_witness :
    Matrix3.reflection (Vector2.mk (3 / 5 : ℚ) (4 / 5))
        = some (Matrix3.reflectionMatrix (Vector2.mk (3 / 5) (4 / 5))) ∧
    (Matrix3.reflectionMatrix (Vector2.mk (3 / 5 : ℚ) (4 / 5))).rotationScaling =
      Matrix2.sub Matrix2.identity
        (Matrix2.smul 2 (Matrix2.outer (Vector2.mk (3 / 5) (4 / 5)))) ∧
    (Matrix3.reflectionMatrix (Vector2.mk (3 / 5 : ℚ) (4 / 5))).translationPart =
      Vector2.mk 0 0 ∧
    (Matrix3.reflectionMatrix (Vector2.mk (3 / 5 : ℚ) (4 / 5))).lastRowOk ∧
    Matrix3.mul (Matrix3.reflectionMatrix (Vector2.mk (3 / 5 : ℚ) (4 / 5)))
        (Matrix3.reflectionMatrix (Vector2.mk (3 / 5) (4 / 5))) = Matrix3.identity ∧
    Matrix3.mulVec (Matrix3.reflectionMatrix (Vector2.mk (3 / 5 : ℚ) (4 / 5)))
        (Vector3.mk (3 / 5) (4 / 5) 1) = Vector3.mk (-(3 / 5)) (-(4 / 5)) 1 :=
  claim_C5_reflection_properties (Vector2.mk (3 / 5 : ℚ) (4 / 5))
    (by norm_num [Vector2.dot])

/-- Claim C2: for an orthogonal 2x2 block `R` and translation `t`, with
`M = from(R, t)`: `invertedEuclidean` succeeds, `M` times its Euclidean
inverse is the identity, and inverting the inverse gives `M` back (the
equalities are exact in the exact-arithmetic model, hence hold within any
epsilon-equality policy). -/
theorem claim_C2_euclidean_inverse_roundtrip [DecidableEq T]
    (R : Matrix2 T) (t : Vector2 T)
    (h : Matrix2.mul R.transposed R = Matrix2.identity) :
    (Matrix3.from' R t).invertedEuclidean = some (Matrix3.from' R.transposed
      (Matrix2.mulVec R.transposed (Vector2.neg t))) ∧
    Matrix3.mul (Matrix3.from' R t) (Matrix3.from' R.transposed
      (Matrix2.mulVec R.transposed (Vector2.neg t))) = Matrix3.identity ∧
    (Matrix3.from' R.transposed
      (Matrix2.mulVec R.transposed (Vector2.neg t))).invertedEuclidean =
      some (Matrix3.from' R t) := by
  have h' := Matrix2.mul_transposed_of_transposed_mul h
  have e1 : (Matrix3.from' R t).invertedEuclidean = some (Matrix3.from' R.transposed
      (Matrix2.mulVec R.transposed (Vector2.neg t))) := by
    unfold Matrix3.invertedEuclidean
    rw [if_pos (Matrix3.lastRowOk_from' R t), if_pos]
    · rfl
    · exact h
  have e2 : (Matrix3.from' R.transposed
      (Matrix2.mulVec R.transposed (Vector2.neg t))).invertedEuclidean =
      some (Matrix3.from' R.transposed.transposed (Matrix2.mulVec R.transposed.transposed
        (Vector2.neg (Matrix2.mulVec R.transposed (Vector2.neg t))))) := by
    unfold Matrix3.invertedEuclidean
    rw [if_pos (Matrix3.lastRowOk_from' _ _), if_pos]
    · rfl
    · exact h'
  refine ⟨e1, ?_, ?_⟩
  · obtain ⟨⟨a, b⟩, ⟨c, d⟩⟩ := R
    obtain ⟨tx, ty⟩ := t
    simp only [Matrix2.mul, Matrix2.transposed, Matrix2.identity, Matrix2.mulVec,
      Matrix2.mk.injEq, Vector2.mk.injEq] at h'
    obtain ⟨⟨k1, k2⟩, k3, k4⟩ := h'
    simp only [Matrix3.mul, Matrix3.mulVec, Matrix3.from', Matrix2.transposed,
      Matrix2.mulVec, Vector2.neg, Matrix3.identity, Matrix3.mk.injEq, Vector3.mk.injEq]
    refine ⟨⟨?_, ?_, ?_⟩, ⟨?_, ?_, ?_⟩, ?_, ?_, ?_⟩
    · linear_combination k1
    · linear_combination k2
    · ring
    · linear_combination k3
    · linear_combination k4
    · ring
    · linear_combination (-tx) * k1 + (-ty) * k3
    · linear_combination (-tx) * k2 + (-ty) * k4
    · ring
  · rw [e2]
    obtain ⟨⟨a, b⟩, ⟨c, d⟩⟩ := R
    obtain ⟨tx, ty⟩ := t
    simp only [Matrix2.mul, Matrix2.transposed, Matrix2.identity, Matrix2.mulVec,
      Matrix2.mk.injEq, Vector2.mk.injEq] at h'
    obtain ⟨⟨k1, k2⟩, k3, k4⟩ := h'
    simp only [Matrix3.from', Matrix2.transposed, Matrix2.mulVec, Vector2.neg,
      Option.some.injEq, Matrix3.mk.injEq, Vector3.mk.injEq]
    refine ⟨trivial, trivial, ?_, ?_, trivial⟩
    · linear_combination tx * k1 + ty * k3
    · linear_combination tx * k2 + ty * k4

/-- Claim C2 witness: for the rational rotation block with columns
`(3/5, 4/5)` and `(-4/5, 3/5)` and translation `(1, 2)`, the Euclidean
inverse round-trips exactly. -/
theorem claim_C2_witness :
    (Matrix3.from' (Matrix2.mk (Vector2.mk (3 / 5 : ℚ) (4 / 5)) (Vector2.mk (-(4 / 5)) (3 / 5)))
        (Vector2.mk 1 2)).invertedEuclidean
      = some (Matrix3.from'
          (Matrix2.mk (Vector2.mk (3 / 5 : ℚ) (4 / 5)) (Vector2.mk (-(4 / 5)) (3 / 5))).transposed
          (Matrix2.mulVec
            (Matrix2.mk (Vector2.mk (3 / 5 : ℚ) (4 / 5))
              (Vector2.mk (-(4 / 5)) (3 / 5))).transposed
            (Vector2.neg (Vector2.mk 1 2)))) ∧
    Matrix3.mul
      (Matrix3.from' (Matrix2.mk (Vector2.mk (3 / 5 : ℚ) (4 / 5)) (Vector2.mk (-(4 / 5)) (3 / 5)))
        (Vector2.mk 1 2))
      (Matrix3.from'
        (Matrix2.mk (Vector2.mk (3 / 5 : ℚ) (4 / 5)) (Vector2.mk (-(4 / 5)) (3 / 5))).transposed
        (Matrix2.mulVec
          (Matrix2.mk (Vector2.mk (3 / 5 : ℚ) (4 / 5))
            (Vector2.mk (-(4 / 5)) (3 / 5))).transposed
          (Vector2.neg (Vector2.mk 1 2)))) = Matrix3.identity ∧
    (Matrix3.from'
        (Matrix2.mk (Vector2.mk (3 / 5 : ℚ) (4 / 5)) (Vector2.mk (-(4 / 5)) (3 / 5))).transposed
        (Matrix2.mulVec
          (Matrix2.mk (Vector2.mk (3 / 5 : ℚ) (4 / 5))
            (Vector2.mk (-(4 / 5)) (3 / 5))).transposed
          (Vector2.neg (Vector2.mk 1 2)))).invertedEuclidean
      = some (Matrix3.from'
          (Matrix2.mk (Vector2.mk (3 / 5 : ℚ) (4 / 5)) (Vector2.mk (-(4 / 5)) (3 / 5)))
          (Vector2.mk 1 2)) :=
  claim_C2_euclidean_inverse_roundtrip
    (Matrix2.mk (Vector2.mk (3 / 5 : ℚ) (4 / 5)) (Vector2.mk (-(4 / 5)) (3 / 5)))
    (Vector2.mk 1 2)
    (by norm_num [Matrix2.mul, Matrix2.transposed, Matrix2.mulVec, Matrix2.identity])

end Magnum
